import Mathlib

/-!
Verification development for `src/mastodon_backup.py`, a single-file script
that backs up the list of accounts a Mastodon user follows.

The script is embedded shallowly:

* Network interaction is modelled by an oracle: the fetch loop consumes a
  response stream `Nat → NetResult α` (the i-th loop request receives the
  i-th response; the stream is shifted on every recursive step), and the
  one-shot account lookup consumes a single `LookupNet` response.
* The loop in `get_all_following` may not terminate (it retries 429
  responses forever), so it is written with explicit fuel; a `none` result
  means the fuel ran out, `some` is an actual return of the Python function.
* The embedding is instrumented with an event trace (`Ev`): each issued
  HTTP request and each `time.sleep` call is recorded.  In particular the
  trace records, for every request, how the call site
  `requests.get(url, timeout)` binds the arguments of
  `requests.get(url, params=None, **kwargs)`: the second positional
  argument lands in `params`, and no `timeout` keyword is passed.
* Logging calls are effect-free in the model (the specification treats
  logging as an external collaborator, out of scope).
* `urllib.parse.urlparse` is external library code; it is modelled for the
  fields the script reads (`netloc`, `path`) on URLs carrying the `https`
  scheme, the only scheme the specification's properties quantify over.
  Strings on the parsing side are represented as `List Char` to keep all
  character manipulation elementary.

Machine integers do not occur (Python integers are unbounded); HTTP status
codes are `Nat`.
-/

namespace MastodonBackup

/-- One HTTP request as issued through the requests library.  The signature
of `requests.get` is `requests.get(url, params=None, **kwargs)`; the record
stores the `url`, the `params` argument and the `timeout` keyword argument
that the call site actually passes. -/
structure HttpCall where
  url : String
  params : Option Nat
  timeout : Option Nat
  deriving DecidableEq

/-- The call `requests.get(url, timeout)` as it appears at lines 93 and 128
of the source: the second positional argument binds to `params`, and no
`timeout=` keyword argument is passed. -/
def requestsGetPositional (url : String) (second : Nat) : HttpCall :=
  ⟨url, some second, none⟩

/-- Observable events of a run: an HTTP request, or a `time.sleep` call
with its duration in seconds. -/
inductive Ev where
  | req (call : HttpCall)
  | sleep (secs : Nat)
  deriving DecidableEq

/-- Body of a response to a page request of the following list, as seen
through `response.json()`: either the body fails to decode (the call raises
`ValueError`), or it is a JSON array of account objects.  Account objects
are opaque to the loop, hence a type parameter. -/
inductive PageBody (α : Type) where
  | parseErr
  | arr (accounts : List α)
  deriving DecidableEq

/-- A received HTTP response in the pagination loop: status code, decoded
body, and the target of the `next` relation of the `Link` header as exposed
by `response.links` (`none` when there is no `next` relation). -/
structure PageResponse (α : Type) where
  status : Nat
  body : PageBody α
  links_next : Option String
  deriving DecidableEq

/-- Outcome of one `requests.get` in the pagination loop: either the
request itself raises `requests.exceptions.RequestException` (connection
error, timeout, ...), or a response arrives. -/
inductive NetResult (α : Type) where
  | exn
  | ok (resp : PageResponse α)
  deriving DecidableEq

variable {α : Type}

/-- The `while url:` loop of `get_all_following` (source lines 126-161),
with fuel.  `server` is the stream of outcomes of the successive
`requests.get` calls; it is shifted by one at each recursive call.
Returns `none` when the fuel is exhausted, otherwise the event trace
together with the list the Python function returns.

Branches, in source order: a raised `RequestException` returns `[]`;
status 429 sleeps 60 seconds and retries the same URL; `raise_for_status`
(which raises exactly for statuses 400-599) aborts with `[]`; a body that
fails to decode aborts with `[]`; an empty array breaks out of the loop
returning the accumulator; otherwise the page is appended and the loop
follows the `next` link if present, else the URL becomes `None` and the
loop ends. -/
def fetchGo (t : Nat) : Nat → (Nat → NetResult α) → String → List α →
    Option (List Ev × List α)
  | 0, _, _, _ => none
  | fuel+1, server, url, acc =>
    match server 0 with
    | .exn => some ([.req (requestsGetPositional url t)], [])
    | .ok r =>
      if r.status = 429 then
        (fetchGo t fuel (fun k => server (k+1)) url acc).map
          (fun p => (.req (requestsGetPositional url t) :: .sleep 60 :: p.1, p.2))
      else if 400 ≤ r.status ∧ r.status < 600 then
        some ([.req (requestsGetPositional url t)], [])
      else
        match r.body with
        | .parseErr => some ([.req (requestsGetPositional url t)], [])
        | .arr [] => some ([.req (requestsGetPositional url t)], acc)
        | .arr (x :: xs) =>
          match r.links_next with
          | some nextUrl =>
            (fetchGo t fuel (fun k => server (k+1)) nextUrl (acc ++ x :: xs)).map
              (fun p => (.req (requestsGetPositional url t) :: p.1, p.2))
          | none => some ([.req (requestsGetPositional url t)], acc ++ x :: xs)

/-- The initial URL of the following collection (source line 122). -/
def followingUrl (inst : String) (user_id : String) (page_size : Nat) : String :=
  "https://" ++ inst ++ "/api/v1/accounts/" ++ user_id ++ "/following?limit=" ++
    toString page_size

/-- Embedding of `get_all_following(instance, user_id, timeout, page_size)`
(source lines 106-164).  `user_id` is `none` for Python `None`; the guard
`if not user_id: return []` fires on `None` and on the empty string and
returns before any request is made (empty event trace). -/
def get_all_following (server : Nat → NetResult α) (fuel : Nat) (inst : String)
    (user_id : Option String) (t : Nat) (page_size : Nat) :
    Option (List Ev × List α) :=
  match user_id with
  | none => some ([], [])
  | some uid =>
    if uid = "" then some ([], [])
    else fetchGo t fuel server (followingUrl inst uid page_size) []

/-- Body of the account-lookup response as seen through `response.json()`:
a decode failure (`ValueError`), or a JSON object represented by its
fields.  The only field the script reads is `"id"`. -/
inductive LookupBody where
  | parseErr
  | obj (fields : List (String × String))
  deriving DecidableEq

/-- Outcome of the single `requests.get` of `get_user_id`: a raised
`RequestException`, or a response with a status code and a body. -/
inductive LookupNet where
  | exn
  | ok (status : Nat) (body : LookupBody)
  deriving DecidableEq

/-- The account-lookup URL (source line 91). -/
def lookupUrl (inst : String) (username : String) : String :=
  "https://" ++ inst ++ "/api/v1/accounts/lookup?acct=" ++ username

/-- Embedding of `get_user_id` (source lines 79-103) as a function of the
single response.  A raised `RequestException` is caught and yields `None`;
`raise_for_status` raises (an exception caught by the same handler) exactly
for statuses 400-599; a body that fails to decode raises `ValueError`,
also caught; otherwise the result is `response.json().get("id")`, which is
`None` when the object has no `"id"` field. -/
def get_user_id (resp : LookupNet) : Option String :=
  match resp with
  | .exn => none
  | .ok status body =>
    if 400 ≤ status ∧ status < 600 then none
    else
      match body with
      | .parseErr => none
      | .obj fields => fields.lookup "id"

/-- Run of `get_user_id` together with its event trace: the function body issues
exactly one `requests.get(url, timeout)` call (source line 93), with the
timeout in the `params` position. -/
def get_user_id_run (resp : LookupNet) (inst : String) (username : String)
    (t : Nat) : List Ev × Option String :=
  ([.req (requestsGetPositional (lookupUrl inst username) t)], get_user_id resp)

/-- Python `str.split` with a one-character separator: `splitOnChar c l`
is the list of maximal separator-free segments of `l`; it is never empty,
and the empty list splits to `[[]]` just as `"".split(c) == [""]`. -/
def splitOnChar (c : Char) : List Char → List (List Char)
  | [] => [[]]
  | x :: xs =>
    match splitOnChar c xs with
    | [] => [[]]
    | s :: rest => if x = c then [] :: s :: rest else (x :: s) :: rest

/-- Python `str.strip` with a one-character argument: removes every leading
and every trailing occurrence of `c`. -/
def stripChar (c : Char) (l : List Char) : List Char :=
  ((l.dropWhile (fun a => a == c)).reverse.dropWhile (fun a => a == c)).reverse

/-- The two fields of a `urllib.parse.urlparse` result that the script
reads. -/
structure UrlParts where
  netloc : List Char
  path : List Char
  deriving DecidableEq

/-- The scheme marker `https://` as a character list. -/
def httpsMark : List Char := ['h', 't', 't', 'p', 's', ':', '/', '/']

/-- Everything strictly before the first occurrence of `c`, the whole list
when `c` does not occur: `url[:url.find(c)]` with Python's convention that
a missing separator keeps the whole string. -/
def cutAtChar (c : Char) (l : List Char) : List Char :=
  l.takeWhile (fun a => !(a == c))

/-- The path component of Python `urllib.parse._splitparams(url)`, which
`urlparse` applies to the path returned by `urlsplit` for schemes that use
parameters (`https` among them): `i = url.find(';', url.rfind('/'))` when
the path contains a `/` (so only the last segment is searched, `;` being
distinct from `/`), `i = url.find(';')` otherwise, and the path is
`url[:i]`, unchanged when no such `;` exists. -/
def splitParams (url : List Char) : List Char :=
  if '/' ∈ url then
    let revSeg := url.reverse.takeWhile (fun a => !(a == '/'))
    url.take (url.length - revSeg.length) ++ cutAtChar ';' revSeg.reverse
  else
    cutAtChar ';' url

/-- Model of `urllib.parse.urlparse`, restricted to the two fields the
script reads and to URLs literally starting with `https://` (the only
scheme the specification's properties quantify over).  For `https://rest`:
`netloc` is the longest run of characters of `rest` before a `/`, `?` or
`#`; the path runs from there up to the first `?` or `#` (query/fragment),
and then the `;params` of its last segment is removed (`_splitparams`,
which `urlparse` adds on top of `urlsplit` for the `https` scheme).
Inputs not starting with `https://` are mapped to an empty `netloc` (as
`urlparse` does for scheme-less inputs); every theorem below that reaches
a success verdict, and the failure direction of C6, quantify over
`https://`-prefixed inputs only.  Library behaviour outside this model —
`urlsplit` removing every tab/CR/LF, stripping leading and trailing
control-or-space characters, and raising `ValueError` on unbalanced `[`/`]`
in the netloc (an exception `parse_profile_url` catches and maps to
`(None, None)`) — is kept out of every theorem's domain by hypotheses
excluding those characters. -/
def urlparse (s : List Char) : UrlParts :=
  if s.take 8 = httpsMark then
    let rest := s.drop 8
    let netloc := rest.takeWhile (fun ch => !(ch == '/' || ch == '?' || ch == '#'))
    let afterNetloc := rest.drop netloc.length
    let pathFull := afterNetloc.takeWhile (fun ch => !(ch == '?' || ch == '#'))
    ⟨netloc, splitParams pathFull⟩
  else
    ⟨[], []⟩

/-- Embedding of `parse_profile_url` (source lines 54-76).  The instance is
`parsed_url.netloc`; the username is
`parsed_url.path.strip("/").split("@")[-1]` (`[-1]` is the last element of
the split, which is never empty); if either is empty the function returns
`(None, None)`. -/
def parse_profile_url (profile_url : List Char) :
    Option (List Char) × Option (List Char) :=
  let parsed := urlparse profile_url
  let inst := parsed.netloc
  let username := (splitOnChar '@' (stripChar '/' parsed.path)).getLastD []
  if inst = [] ∨ username = [] then (none, none)
  else (some inst, some username)

/-- Embedding of `main` (source lines 167-206), returning the process exit
code: `sys.exit(1)` when the parsed instance or username is falsy,
`sys.exit(1)` when the looked-up user id is falsy (`None` or `""`), and
otherwise the script runs to the end of `main`, printing the results, and
the process exits with code 0.  The result is `none` when the pagination
loop runs out of fuel (the process never exits). -/
def main (profile_url : List Char) (lookup : LookupNet)
    (server : Nat → NetResult α) (t : Nat) (page_size : Nat) (fuel : Nat) :
    Option Nat :=
  match parse_profile_url profile_url with
  | (inst?, user?) =>
    if inst?.getD [] = [] ∨ user?.getD [] = [] then some 1
    else
      match get_user_id lookup with
      | none => some 1
      | some uid =>
        if uid = "" then some 1
        else
          match get_all_following server fuel ⟨inst?.getD []⟩ (some uid) t page_size with
          | none => none
          | some _ => some 0

/-- A fixed response stream read off a finite list; requests beyond the end
of the list fail (they are never reached in the proofs below). -/
def seqServer : List (NetResult α) → Nat → NetResult α
  | [], _ => .exn
  | r :: _, 0 => r
  | _ :: rs, i+1 => seqServer rs i

/-- Distinct page URLs used as `next` link targets in test scenarios. -/
def pageUrl (j : Nat) : String := "https://inst/page/" ++ toString j

/-- The response stream of a chain of successful pages linked via `next`
relations: page `i` (counting from `j`) carries status 200, body
`pages[i]`, and a `next` link to the following page; the last page carries
`lastNext` as its `next` relation. -/
def pageResponses (lastNext : Option String) : List (List α) → Nat → List (NetResult α)
  | [], _ => []
  | p :: ps, j =>
    .ok ⟨200, .arr p, match ps with | [] => lastNext | _ :: _ => some (pageUrl (j+1))⟩ ::
      pageResponses lastNext ps (j+1)

/-- A response outcome on which the pagination loop goes on to a further
request: a 429 (retry), or a successful non-empty page with a `next`
link. -/
def continuesFetch : NetResult α → Bool
  | .exn => false
  | .ok r =>
    if r.status = 429 then true
    else if 400 ≤ r.status ∧ r.status < 600 then false
    else
      match r.body with
      | .parseErr => false
      | .arr [] => false
      | .arr (_ :: _) => r.links_next.isSome

/-- A response outcome on which the loop aborts and returns `[]`: a raised
`RequestException`, a status that `raise_for_status` raises on (400-599
other than 429, which is intercepted first), or a body that fails to
decode on a status that is not raised on. -/
def abortsFetch : NetResult α → Prop
  | .exn => True
  | .ok r => r.status ≠ 429 ∧ ((400 ≤ r.status ∧ r.status < 600) ∨ r.body = .parseErr)

/-! Unfolding lemmas for one iteration of the pagination loop, one per
branch of the loop body. -/

lemma fetchGo_exn {server : Nat → NetResult α} (h : server 0 = .exn)
    (t fuel : Nat) (u : String) (acc : List α) :
    fetchGo t (fuel+1) server u acc =
      some ([.req (requestsGetPositional u t)], []) := by
  simp [fetchGo, h]

lemma fetchGo_429 {server : Nat → NetResult α} {r : PageResponse α}
    (h : server 0 = .ok r) (h429 : r.status = 429)
    (t fuel : Nat) (u : String) (acc : List α) :
    fetchGo t (fuel+1) server u acc =
      (fetchGo t fuel (fun k => server (k+1)) u acc).map
        (fun p => (.req (requestsGetPositional u t) :: .sleep 60 :: p.1, p.2)) := by
  simp [fetchGo, h, h429]

lemma fetchGo_raise {server : Nat → NetResult α} {r : PageResponse α}
    (h : server 0 = .ok r) (h429 : r.status ≠ 429)
    (hr : 400 ≤ r.status ∧ r.status < 600)
    (t fuel : Nat) (u : String) (acc : List α) :
    fetchGo t (fuel+1) server u acc =
      some ([.req (requestsGetPositional u t)], []) := by
  simp [fetchGo, h, h429, hr]

lemma fetchGo_parseErr {server : Nat → NetResult α} {r : PageResponse α}
    (h : server 0 = .ok r) (h429 : r.status ≠ 429)
    (hr : ¬(400 ≤ r.status ∧ r.status < 600)) (hb : r.body = .parseErr)
    (t fuel : Nat) (u : String) (acc : List α) :
    fetchGo t (fuel+1) server u acc =
      some ([.req (requestsGetPositional u t)], []) := by
  simp [fetchGo, h, h429, hr, hb]

lemma fetchGo_emptyPage {server : Nat → NetResult α} {r : PageResponse α}
    (h : server 0 = .ok r) (h429 : r.status ≠ 429)
    (hr : ¬(400 ≤ r.status ∧ r.status < 600)) (hb : r.body = .arr [])
    (t fuel : Nat) (u : String) (acc : List α) :
    fetchGo t (fuel+1) server u acc =
      some ([.req (requestsGetPositional u t)], acc) := by
  simp [fetchGo, h, h429, hr, hb]

lemma fetchGo_page_next {server : Nat → NetResult α} {r : PageResponse α}
    {x : α} {xs : List α} {nextUrl : String}
    (h : server 0 = .ok r) (h429 : r.status ≠ 429)
    (hr : ¬(400 ≤ r.status ∧ r.status < 600)) (hb : r.body = .arr (x :: xs))
    (hn : r.links_next = some nextUrl)
    (t fuel : Nat) (u : String) (acc : List α) :
    fetchGo t (fuel+1) server u acc =
      (fetchGo t fuel (fun k => server (k+1)) nextUrl (acc ++ x :: xs)).map
        (fun p => (.req (requestsGetPositional u t) :: p.1, p.2)) := by
  simp [fetchGo, h, h429, hr, hb, hn]

lemma fetchGo_page_noNext {server : Nat → NetResult α} {r : PageResponse α}
    {x : α} {xs : List α}
    (h : server 0 = .ok r) (h429 : r.status ≠ 429)
    (hr : ¬(400 ≤ r.status ∧ r.status < 600)) (hb : r.body = .arr (x :: xs))
    (hn : r.links_next = none)
    (t fuel : Nat) (u : String) (acc : List α) :
    fetchGo t (fuel+1) server u acc =
      some ([.req (requestsGetPositional u t)], acc ++ x :: xs) := by
  simp [fetchGo, h, h429, hr, hb, hn]

/-- C2: whenever a response in the Fetcher's loop has status 429, the
Fetcher sleeps 60 seconds and re-requests the same URL without advancing
or accumulating anything; consequently a one-time 429 followed by a 200
with body `[x]` and no further pages yields exactly `[x]`, with the same
returned list as a run with no 429. -/
theorem C2_rate_limited_retries_same_url :
    (∀ (server : Nat → NetResult α) (r : PageResponse α) (t fuel : Nat)
        (u : String) (acc : List α), server 0 = .ok r → r.status = 429 →
      fetchGo t (fuel+1) server u acc =
        (fetchGo t fuel (fun k => server (k+1)) u acc).map
          (fun p => (.req (requestsGetPositional u t) :: .sleep 60 :: p.1, p.2)))
    ∧ (∀ (x : α) (b : PageBody α) (nl : Option String) (t : Nat) (u : String),
      fetchGo t 2 (seqServer [.ok ⟨429, b, nl⟩, .ok ⟨200, .arr [x], none⟩]) u [] =
        some ([.req (requestsGetPositional u t), .sleep 60,
               .req (requestsGetPositional u t)], [x])
      ∧ fetchGo t 1 (seqServer [.ok ⟨200, .arr [x], none⟩]) u [] =
        some ([.req (requestsGetPositional u t)], [x])) := by
  constructor
  · intro server r t fuel u acc h h429
    exact fetchGo_429 h h429 t fuel u acc
  · intro x b nl t u
    constructor <;> simp [fetchGo, seqServer]

/-- Witness for C2 at concrete inputs: a 429 with no successor response
retries (and runs out of fuel, having advanced nothing), and the one-time
429 scenario returns exactly `[7]`. -/
theorem C2_rate_limited_retries_same_url_witness :
    fetchGo 5 1 (seqServer [NetResult.ok ⟨429, PageBody.parseErr, none⟩]) "u"
      ([] : List Nat) = none
    ∧ fetchGo 5 2 (seqServer [NetResult.ok ⟨429, PageBody.parseErr, none⟩,
        NetResult.ok ⟨200, PageBody.arr [7], none⟩]) "u" [] =
      some ([Ev.req (requestsGetPositional "u" 5), Ev.sleep 60,
             Ev.req (requestsGetPositional "u" 5)], [7]) := by
  constructor
  · have h := (@C2_rate_limited_retries_same_url Nat).1
      (seqServer [NetResult.ok ⟨429, PageBody.parseErr, none⟩])
      ⟨429, PageBody.parseErr, none⟩ 5 0 "u" [] rfl rfl
    exact h.trans rfl
  · exact ((@C2_rate_limited_retries_same_url Nat).2 7 PageBody.parseErr none 5 "u").1

/-- C3: whenever a request of the pagination loop fails (raised
`RequestException`, status raised by `raise_for_status`, or a body that
fails to decode as JSON), the Fetcher returns the empty list immediately,
discarding the accumulator; in particular a failure on page 2 after a
successful page 1 returns `[]`. -/
theorem C3_abort_discards_partial_results :
    (∀ (server : Nat → NetResult α) (t fuel : Nat) (u : String) (acc : List α),
      abortsFetch (server 0) →
      fetchGo t (fuel+1) server u acc =
        some ([.req (requestsGetPositional u t)], []))
    ∧ (∀ (a b : α) (t : Nat) (u u2 : String),
      fetchGo t 2 (seqServer [.ok ⟨200, .arr [a, b], some u2⟩,
          .ok ⟨500, .arr [], none⟩]) u [] =
        some ([.req (requestsGetPositional u t),
               .req (requestsGetPositional u2 t)], [])) := by
  constructor
  · intro server t fuel u acc h
    cases hs : server 0 with
    | exn => exact fetchGo_exn hs t fuel u acc
    | ok r =>
      rw [hs] at h
      have h' : r.status ≠ 429 ∧
          ((400 ≤ r.status ∧ r.status < 600) ∨ r.body = .parseErr) := h
      by_cases hr : 400 ≤ r.status ∧ r.status < 600
      · exact fetchGo_raise hs h'.1 hr t fuel u acc
      · have hb : r.body = .parseErr := h'.2.resolve_left hr
        exact fetchGo_parseErr hs h'.1 hr hb t fuel u acc
  · intro a b t u u2
    simp [fetchGo, seqServer]

/-- Witness for C3: a raised request exception with a non-empty
accumulator returns `[]`, not the accumulator. -/
theorem C3_abort_discards_partial_results_witness :
    fetchGo 5 3 (seqServer [NetResult.exn]) "u" ([3] : List Nat) =
      some ([Ev.req (requestsGetPositional "u" 5)], []) :=
  C3_abort_discards_partial_results.1 (seqServer [NetResult.exn]) 5 2 "u" [3] trivial

/-- C9: for every instance, timeout and page size, a falsy `user_id`
(Python `None` or the empty string) makes `get_all_following` return the
empty list immediately, with no network request issued (empty event
trace). -/
theorem C9_falsy_user_id_short_circuits :
    ∀ (server : Nat → NetResult α) (fuel : Nat) (inst : String)
      (user_id : Option String) (t page_size : Nat),
    user_id = none ∨ user_id = some "" →
    get_all_following server fuel inst user_id t page_size = some ([], []) := by
  intro server fuel inst user_id t page_size h
  rcases h with h | h <;> subst h <;> simp [get_all_following]

/-- Witness for C9 at a concrete falsy user id. -/
theorem C9_falsy_user_id_short_circuits_witness :
    get_all_following (seqServer ([] : List (NetResult Nat))) 3 "mastodon.online"
      (some "") 5 80 = some ([], []) :=
  C9_falsy_user_id_short_circuits (seqServer []) 3 "mastodon.online" (some "") 5 80
    (Or.inr rfl)

/-- A response on which the loop body neither recurses nor runs out of
fuel: the loop returns right away, whatever the fuel left. -/
lemma fetch_stop_step {server : Nat → NetResult α}
    (h : continuesFetch (server 0) = false) (t fuel : Nat) (u : String)
    (acc : List α) :
    ∃ r, fetchGo t (fuel+1) server u acc = some r := by
  cases hs : server 0 with
  | exn => exact ⟨_, fetchGo_exn hs t fuel u acc⟩
  | ok r =>
    rw [hs] at h
    by_cases h429 : r.status = 429
    · simp [continuesFetch, h429] at h
    · by_cases hr : 400 ≤ r.status ∧ r.status < 600
      · exact ⟨_, fetchGo_raise hs h429 hr t fuel u acc⟩
      · cases hb : r.body with
        | parseErr => exact ⟨_, fetchGo_parseErr hs h429 hr hb t fuel u acc⟩
        | arr l =>
          cases l with
          | nil => exact ⟨_, fetchGo_emptyPage hs h429 hr hb t fuel u acc⟩
          | cons x xs =>
            cases hn : r.links_next with
            | some nu => simp [continuesFetch, h429, hr, hb, hn] at h
            | none => exact ⟨_, fetchGo_page_noNext hs h429 hr hb hn t fuel u acc⟩

/-- A response on which the loop goes on shifts the stream and recurses
(on the same URL for a 429, on the `next` URL for a full page). -/
lemma fetch_continue_step {server : Nat → NetResult α}
    (h : continuesFetch (server 0) = true) (t fuel : Nat) (u : String)
    (acc : List α) :
    ∃ u' acc' g, fetchGo t (fuel+1) server u acc =
      (fetchGo t fuel (fun k => server (k+1)) u' acc').map g := by
  cases hs : server 0 with
  | exn => rw [hs] at h; simp [continuesFetch] at h
  | ok r =>
    rw [hs] at h
    by_cases h429 : r.status = 429
    · exact ⟨u, acc, _, fetchGo_429 hs h429 t fuel u acc⟩
    · by_cases hr : 400 ≤ r.status ∧ r.status < 600
      · simp [continuesFetch, h429, hr] at h
      · cases hb : r.body with
        | parseErr => simp [continuesFetch, h429, hr, hb] at h
        | arr l =>
          cases l with
          | nil => simp [continuesFetch, h429, hr, hb] at h
          | cons x xs =>
            cases hn : r.links_next with
            | none => simp [continuesFetch, h429, hr, hb, hn] at h
            | some nu =>
              exact ⟨nu, acc ++ x :: xs, _, fetchGo_page_next hs h429 hr hb hn t fuel u acc⟩

/-- If the `n`-th response of the stream ends the loop, fuel `n+1`
suffices for the loop to return. -/
lemma fetch_terminates_aux (t : Nat) :
    ∀ (n : Nat) (server : Nat → NetResult α) (u : String) (acc : List α),
    continuesFetch (server n) = false →
    ∃ r, fetchGo t (n+1) server u acc = some r := by
  intro n
  induction n with
  | zero => intro server u acc h; exact fetch_stop_step h t 0 u acc
  | succ m ih =>
    intro server u acc h
    by_cases h0 : continuesFetch (server 0) = true
    · obtain ⟨u', acc', g, hstep⟩ := fetch_continue_step h0 t (m+1) u acc
      obtain ⟨r, hr⟩ := ih (fun k => server (k+1)) u' acc' h
      exact ⟨g r, by rw [hstep, hr]; rfl⟩
    · have h0' : continuesFetch (server 0) = false := by
        cases hc : continuesFetch (server 0) with
        | false => rfl
        | true => exact absurd hc h0
      exact fetch_stop_step h0' t (m+1) u acc

/-- Against a stream that answers 429 on every request, the loop consumes
any amount of fuel without returning. -/
lemma fetch_429_forever (t : Nat) :
    ∀ (fuel : Nat) (server : Nat → NetResult α),
    (∀ i, ∃ b nl, server i = .ok ⟨429, b, nl⟩) →
    ∀ (u : String) (acc : List α), fetchGo t fuel server u acc = none := by
  intro fuel
  induction fuel with
  | zero => intro server _ u acc; rfl
  | succ m ih =>
    intro server h u acc
    obtain ⟨b, nl, h0⟩ := h 0
    rw [fetchGo_429 h0 rfl t m u acc,
      ih (fun k => server (k+1)) (fun i => h (i+1)) u acc]
    rfl

/-- C8: the Fetcher's loop terminates for every response stream on which
some request ends the loop (an error, an empty array, or a full page with
no `next` link, after finitely many 429s and chained pages); conversely,
against an endpoint that answers 429 indefinitely, the loop never returns,
whatever the fuel (no retry-count ceiling). -/
theorem C8_termination_iff_finite_chain :
    ∀ (server : Nat → NetResult α) (t : Nat) (u : String),
    ((∃ i, continuesFetch (server i) = false) →
      ∃ fuel r, fetchGo t fuel server u [] = some r)
    ∧ ((∀ i, ∃ b nl, server i = .ok ⟨429, b, nl⟩) →
      ∀ (fuel : Nat) (acc : List α), fetchGo t fuel server u acc = none) := by
  intro server t u
  constructor
  · rintro ⟨i, hi⟩
    obtain ⟨r, hr⟩ := fetch_terminates_aux t i server u [] hi
    exact ⟨i+1, r, hr⟩
  · intro h fuel acc
    exact fetch_429_forever t fuel server h u acc

/-- Witness for C8: a stream whose first response is an empty page makes
the loop return, and the constant-429 stream exhausts any fuel. -/
theorem C8_termination_iff_finite_chain_witness :
    (∃ fuel r, fetchGo 5 fuel
      (seqServer [NetResult.ok ⟨200, PageBody.arr ([] : List Nat), none⟩]) "u" [] =
        some r)
    ∧ fetchGo 5 7 (fun _ => NetResult.ok ⟨429, PageBody.parseErr, none⟩) "u"
        ([] : List Nat) = none := by
  constructor
  · exact ((@C8_termination_iff_finite_chain Nat)
      (seqServer [NetResult.ok ⟨200, PageBody.arr [], none⟩]) 5 "u").1 ⟨0, by decide⟩
  · exact ((@C8_termination_iff_finite_chain Nat)
      (fun _ => NetResult.ok ⟨429, PageBody.parseErr, none⟩) 5 "u").2
      (fun i => ⟨PageBody.parseErr, none, rfl⟩) 7 []

/-- Every request recorded in a trace of the pagination loop was issued by
`requests.get(url, timeout)`: the timeout value sits in the `params`
argument and no `timeout` keyword is passed. -/
lemma fetch_trace_calls (t : Nat) :
    ∀ (fuel : Nat) (server : Nat → NetResult α) (u : String) (acc : List α)
      (tr : List Ev) (res : List α), fetchGo t fuel server u acc = some (tr, res) →
    ∀ c : HttpCall, Ev.req c ∈ tr → c.timeout = none ∧ c.params = some t := by
  intro fuel
  induction fuel with
  | zero =>
    intro server u acc tr res h
    exact absurd h (by simp [fetchGo])
  | succ m ih =>
    intro server u acc tr res h c hc
    cases hs : server 0 with
    | exn =>
      rw [fetchGo_exn hs t m u acc] at h
      simp only [Option.some.injEq, Prod.mk.injEq] at h
      obtain ⟨rfl, rfl⟩ := h
      simp only [List.mem_singleton, Ev.req.injEq] at hc
      subst hc
      exact ⟨rfl, rfl⟩
    | ok r =>
      by_cases h429 : r.status = 429
      · rw [fetchGo_429 hs h429 t m u acc] at h
        obtain ⟨⟨tr', res'⟩, hinner, hf⟩ := Option.map_eq_some'.mp h
        simp only [Prod.mk.injEq] at hf
        obtain ⟨rfl, rfl⟩ := hf
        simp only [List.mem_cons] at hc
        rcases hc with hc | hc | hc
        · cases hc; exact ⟨rfl, rfl⟩
        · cases hc
        · exact ih (fun k => server (k+1)) u acc tr' res' hinner c hc
      · by_cases hr : 400 ≤ r.status ∧ r.status < 600
        · rw [fetchGo_raise hs h429 hr t m u acc] at h
          simp only [Option.some.injEq, Prod.mk.injEq] at h
          obtain ⟨rfl, rfl⟩ := h
          simp only [List.mem_singleton, Ev.req.injEq] at hc
          subst hc
          exact ⟨rfl, rfl⟩
        · cases hb : r.body with
          | parseErr =>
            rw [fetchGo_parseErr hs h429 hr hb t m u acc] at h
            simp only [Option.some.injEq, Prod.mk.injEq] at h
            obtain ⟨rfl, rfl⟩ := h
            simp only [List.mem_singleton, Ev.req.injEq] at hc
            subst hc
            exact ⟨rfl, rfl⟩
          | arr l =>
            cases l with
            | nil =>
              rw [fetchGo_emptyPage hs h429 hr hb t m u acc] at h
              simp only [Option.some.injEq, Prod.mk.injEq] at h
              obtain ⟨rfl, rfl⟩ := h
              simp only [List.mem_singleton, Ev.req.injEq] at hc
              subst hc
              exact ⟨rfl, rfl⟩
            | cons x xs =>
              cases hn : r.links_next with
              | none =>
                rw [fetchGo_page_noNext hs h429 hr hb hn t m u acc] at h
                simp only [Option.some.injEq, Prod.mk.injEq] at h
                obtain ⟨rfl, rfl⟩ := h
                simp only [List.mem_singleton, Ev.req.injEq] at hc
                subst hc
                exact ⟨rfl, rfl⟩
              | some nu =>
                rw [fetchGo_page_next hs h429 hr hb hn t m u acc] at h
                obtain ⟨⟨tr', res'⟩, hinner, hf⟩ := Option.map_eq_some'.mp h
                simp only [Prod.mk.injEq] at hf
                obtain ⟨rfl, rfl⟩ := hf
                simp only [List.mem_cons] at hc
                rcases hc with hc | hc
                · cases hc; exact ⟨rfl, rfl⟩
                · exact ih (fun k => server (k+1)) nu (acc ++ x :: xs) tr' res' hinner c hc

/-- C4: no HTTP GET of the program carries the caller-supplied timeout as
its request timeout.  Both call sites execute `requests.get(url, timeout)`,
whose second positional parameter is `params`: every request recorded in a
trace of the account lookup or of the pagination loop has `timeout = none`
and `params = some t`. -/
theorem C4_requests_issued_without_timeout :
    (∀ (t : Nat) (resp : LookupNet) (inst username : String) (c : HttpCall),
      Ev.req c ∈ (get_user_id_run resp inst username t).1 →
      c.timeout = none ∧ c.params = some t)
    ∧ (∀ (t fuel : Nat) (server : Nat → NetResult α) (u : String) (acc : List α)
        (tr : List Ev) (res : List α),
      fetchGo t fuel server u acc = some (tr, res) →
      ∀ c : HttpCall, Ev.req c ∈ tr → c.timeout = none ∧ c.params = some t) := by
  constructor
  · intro t resp inst username c hc
    simp only [get_user_id_run, List.mem_singleton, Ev.req.injEq] at hc
    subst hc
    exact ⟨rfl, rfl⟩
  · intro t fuel server u acc tr res h c hc
    exact fetch_trace_calls t fuel server u acc tr res h c hc

/-- Witness for C4: the single lookup request of a concrete run carries no
timeout and the timeout value 5 in its `params` argument. -/
theorem C4_requests_issued_without_timeout_witness :
    (requestsGetPositional (lookupUrl "mastodon.online" "rozie") 5).timeout = none
    ∧ (requestsGetPositional (lookupUrl "mastodon.online" "rozie") 5).params = some 5 :=
  (@C4_requests_issued_without_timeout Nat).1 5 LookupNet.exn "mastodon.online" "rozie"
    (requestsGetPositional (lookupUrl "mastodon.online" "rozie") 5)
    (List.mem_singleton.mpr rfl)

/-- The trace of chained page URLs over a range shifts by one when the
first page is consumed. -/
lemma range_map_pageUrl (j n : Nat) :
    (List.range (n+1)).map (fun k => pageUrl (j+1+k)) =
      pageUrl (j+1) :: (List.range n).map (fun k => pageUrl (j+1+1+k)) := by
  rw [List.range_succ_eq_map, List.map_cons, List.map_map]
  have htail : (List.range n).map ((fun k => pageUrl (j+1+k)) ∘ Nat.succ) =
      (List.range n).map (fun k => pageUrl (j+1+1+k)) :=
    List.map_congr_left fun a _ => congrArg pageUrl (by omega)
  rw [htail]

/-- Running the loop against a chain of pages linked via `next` relations
accumulates the concatenation of the pages in order, requesting exactly
the chained URLs, provided every non-final page is non-empty and the chain
ends with an empty page or with a page carrying no `next` relation. -/
lemma fetch_page_chain (t : Nat) (lastNext : Option String) :
    ∀ (ps : List (List α)) (j : Nat) (u : String) (acc : List α),
    ps ≠ [] → (∀ p ∈ ps.dropLast, p ≠ []) →
    (ps.getLast? = some [] ∨ lastNext = none) →
    fetchGo t ps.length (seqServer (pageResponses lastNext ps j)) u acc =
      some ((u :: (List.range (ps.length - 1)).map fun k => pageUrl (j+1+k)).map
              (fun v => Ev.req (requestsGetPositional v t)),
            acc ++ ps.flatten) := by
  intro ps
  induction ps with
  | nil => intro j u acc h _ _; exact absurd rfl h
  | cons p ps ih =>
    intro j u acc _ hmid hterm
    cases ps with
    | nil =>
      cases p with
      | nil =>
        refine (fetchGo_emptyPage rfl (show (200:Nat) ≠ 429 by decide)
          (show ¬(400 ≤ (200:Nat) ∧ (200:Nat) < 600) by decide) rfl t 0 u acc).trans ?_
        simp
      | cons x xs =>
        rcases hterm with h | h
        · simp at h
        · subst h
          refine (fetchGo_page_noNext rfl (show (200:Nat) ≠ 429 by decide)
            (show ¬(400 ≤ (200:Nat) ∧ (200:Nat) < 600) by decide) rfl rfl t 0 u acc).trans ?_
          simp
    | cons q qs =>
      have hp : p ≠ [] := hmid p (List.mem_cons_self p ((q :: qs).dropLast))
      cases p with
      | nil => exact absurd rfl hp
      | cons x xs =>
        refine (fetchGo_page_next rfl (show (200:Nat) ≠ 429 by decide)
          (show ¬(400 ≤ (200:Nat) ∧ (200:Nat) < 600) by decide) rfl rfl t
          ((q :: qs).length) u acc).trans ?_
        have hshift : (fun k => seqServer (pageResponses lastNext ((x :: xs) :: q :: qs) j) (k+1)) =
            seqServer (pageResponses lastNext (q :: qs) (j+1)) := rfl
        rw [hshift]
        have hmid' : ∀ p' ∈ (q :: qs).dropLast, p' ≠ [] :=
          fun p' hp' => hmid p' (List.mem_cons_of_mem _ hp')
        have hterm' : (q :: qs).getLast? = some [] ∨ lastNext = none := by
          rcases hterm with h | h
          · rw [List.getLast?_cons_cons] at h; exact Or.inl h
          · exact Or.inr h
        rw [ih (j+1) (pageUrl (j+1)) (acc ++ x :: xs) (List.cons_ne_nil q qs) hmid' hterm']
        simp [range_map_pageUrl, List.append_assoc]

/-- C1: for every finite chain of successful pages linked via `next`
relations and terminated by an empty JSON array or by a page with no
`next` link, the Fetcher returns the concatenation of all page elements in
server order (no re-sorting, no deduplication), having requested exactly
the chained URLs in order. -/
theorem C1_fetcher_concatenates_pages_in_order (pages : List (List α))
    (lastNext : Option String) (u0 : String) (t : Nat)
    (hne : pages ≠ []) (hmid : ∀ p ∈ pages.dropLast, p ≠ [])
    (hterm : pages.getLast? = some [] ∨ lastNext = none) :
    fetchGo t pages.length (seqServer (pageResponses lastNext pages 0)) u0 [] =
      some ((u0 :: (List.range (pages.length - 1)).map fun k => pageUrl (1+k)).map
              (fun v => Ev.req (requestsGetPositional v t)),
            pages.flatten) :=
  fetch_page_chain t lastNext pages 0 u0 [] hne hmid hterm

/-- Witness for C1, the specification's own example: pages `[1,2]`, `[3]`,
`[]` linked via `next` yield `[1,2,3]` in that order. -/
theorem C1_fetcher_concatenates_pages_in_order_witness :
    fetchGo 5 3 (seqServer (pageResponses none [[1,2],[3],[]] 0)) "u0" ([] : List Nat) =
      some ([Ev.req (requestsGetPositional "u0" 5),
             Ev.req (requestsGetPositional (pageUrl 1) 5),
             Ev.req (requestsGetPositional (pageUrl 2) 5)], [1,2,3]) := by
  have h := C1_fetcher_concatenates_pages_in_order [[1,2],[3],[]] none "u0" 5
    (by decide) (by decide) (Or.inl rfl)
  exact h.trans (by decide)

/-! Elementary facts about `takeWhile`, `dropWhile`, `splitOnChar` and
`stripChar`, used to evaluate the URL resolver on symbolic URLs. -/

/-- C5 counterexample: a 302 response (non-2xx) whose body is a JSON
object with an `id` field makes `get_user_id` return the id rather than
the failure value `None`, because `raise_for_status` only raises for
statuses 400-599. -/
theorem C5_lookup_3xx_returns_id_counterexample :
    get_user_id (LookupNet.ok 302 (LookupBody.obj [("id", "7")])) = some "7"
    ∧ ¬(200 ≤ 302 ∧ 302 < 300) := by
  constructor
  · rfl
  · decide

/-- C5 as amended: Account Lookup issues exactly one network call with no
retry; a raised network error, a status in 400-599, an undecodable body,
or a missing `id` field yield `None` (`fields.lookup "id"` is `none` when
the field is absent); any response whose status is outside 400-599
(2xx but also 3xx) with a JSON-object body yields `response.json().get("id")`. -/
theorem C5_lookup_single_call_amended :
    ∀ (resp : LookupNet) (inst username : String) (t : Nat),
    (get_user_id_run resp inst username t).1 =
        [Ev.req (requestsGetPositional (lookupUrl inst username) t)]
    ∧ (resp = .exn → get_user_id resp = none)
    ∧ (∀ status body, resp = .ok status body → 400 ≤ status → status < 600 →
        get_user_id resp = none)
    ∧ (∀ status, resp = .ok status .parseErr → get_user_id resp = none)
    ∧ (∀ status fields, resp = .ok status (.obj fields) →
        ¬(400 ≤ status ∧ status < 600) →
        get_user_id resp = fields.lookup "id") := by
  intro resp inst username t
  refine ⟨rfl, ?_, ?_, ?_, ?_⟩
  · intro h; subst h; rfl
  · intro status body h h1 h2
    subst h
    simp [get_user_id, h1, h2]
  · intro status h
    subst h
    by_cases hr : 400 ≤ status ∧ status < 600 <;> simp [get_user_id, hr]
  · intro status fields h hr
    subst h
    simp [get_user_id, hr]

/-- Witness for the amended C5: the response `{"id": "123"}` with status
200 makes Account Lookup return `"123"`. -/
theorem C5_lookup_single_call_amended_witness :
    get_user_id (LookupNet.ok 200 (LookupBody.obj [("id", "123")])) = some "123" := by
  have h := (C5_lookup_single_call_amended
    (LookupNet.ok 200 (LookupBody.obj [("id", "123")])) "mastodon.online" "rozie"
    5).2.2.2.2 200 [("id", "123")] rfl (by decide)
  exact h.trans (by decide)

/-- The exit code of `main`, expressed as a case split on the two guarded
failure conditions of the orchestrator. -/
lemma main_eq (profile_url : List Char) (lookup : LookupNet)
    (server : Nat → NetResult α) (t page_size fuel : Nat) :
    main profile_url lookup server t page_size fuel =
      if (parse_profile_url profile_url).1.getD [] = [] ∨
          (parse_profile_url profile_url).2.getD [] = [] then some 1
      else if get_user_id lookup = none ∨ get_user_id lookup = some "" then some 1
      else (get_all_following server fuel ⟨(parse_profile_url profile_url).1.getD []⟩
          (get_user_id lookup) t page_size).map (fun _ => 0) := by
  unfold main
  rcases hpr : parse_profile_url profile_url with ⟨i?, u?⟩
  dsimp only
  by_cases h1 : i?.getD [] = [] ∨ u?.getD [] = []
  · rw [if_pos h1, if_pos h1]
  · rw [if_neg h1, if_neg h1]
    cases hget : get_user_id lookup with
    | none => simp
    | some uid =>
      dsimp only
      by_cases h2 : uid = ""
      · subst h2; simp
      · rw [if_neg h2, if_neg (by simp [h2])]
        cases hga : get_all_following server fuel ⟨i?.getD []⟩ (some uid) t page_size with
        | none => simp [hga]
        | some r => simp [hga]

/-- C7: the process exits with code 1 exactly when the URL Resolver or
the Account Lookup produces a falsy result, every completed run exits with
code 0 or 1, and a completed run with both steps successful exits with
code 0 whatever the fetch did — a fetch failure (empty result) is not
distinguished from zero followers by exit code. -/
theorem C7_exit_code_one_iff_resolver_or_lookup_fails :
    ∀ (profile_url : List Char) (lookup : LookupNet) (server : Nat → NetResult α)
      (t page_size fuel : Nat),
    (main profile_url lookup server t page_size fuel = some 1 ↔
      ((parse_profile_url profile_url).1.getD [] = [] ∨
       (parse_profile_url profile_url).2.getD [] = [] ∨
       get_user_id lookup = none ∨ get_user_id lookup = some ""))
    ∧ (∀ code, main profile_url lookup server t page_size fuel = some code →
        code = 0 ∨ code = 1)
    ∧ (main profile_url lookup server t page_size fuel ≠ none →
        ¬((parse_profile_url profile_url).1.getD [] = [] ∨
          (parse_profile_url profile_url).2.getD [] = [] ∨
          get_user_id lookup = none ∨ get_user_id lookup = some "") →
        main profile_url lookup server t page_size fuel = some 0) := by
  intro profile_url lookup server t page_size fuel
  rw [main_eq]
  by_cases h1 : (parse_profile_url profile_url).1.getD [] = [] ∨
      (parse_profile_url profile_url).2.getD [] = []
  · rcases h1 with h1 | h1 <;> simp [h1]
  · by_cases h2 : get_user_id lookup = none ∨ get_user_id lookup = some ""
    · have h1' := h1
      push_neg at h1'
      rcases h2 with h2 | h2 <;> simp [h1, h1'.1, h1'.2, h2]
    · have h1' := h1
      have h2' := h2
      push_neg at h1' h2'
      cases hga : get_all_following server fuel
          ⟨(parse_profile_url profile_url).1.getD []⟩ (get_user_id lookup) t page_size with
      | none => simp [h1, h2, hga, h1'.1, h1'.2, h2'.1, h2'.2]
      | some r => simp [h1, h2, hga, h1'.1, h1'.2, h2'.1, h2'.2]

/-- Witness for C7: a successful end-to-end run (valid URL, id `42`, one
empty page) exits with code 0. -/
theorem C7_exit_code_one_iff_resolver_or_lookup_fails_witness :
    main ("https://example.social/@alice".data)
      (LookupNet.ok 200 (LookupBody.obj [("id", "42")]))
      (seqServer [NetResult.ok ⟨200, PageBody.arr ([] : List Nat), none⟩]) 5 80 1 =
      some 0 := by
  have h := (C7_exit_code_one_iff_resolver_or_lookup_fails
    ("https://example.social/@alice".data)
    (LookupNet.ok 200 (LookupBody.obj [("id", "42")]))
    (seqServer [NetResult.ok ⟨200, PageBody.arr ([] : List Nat), none⟩]) 5 80 1).2.2
  exact h (by decide) (by decide)

end MastodonBackup
